import Mathlib

/-!
Verification of the uflacs IR-construction middle-end.

Shallow embedding of the block-mode decision algorithm, the table
pre-integration and pre-multiplication kernels, the dependency analyzer and
the modified-terminal analyzer, translated from
`ffc/uflacs/build_uflacs_ir.py` and `uflacs/analysis/modified_terminals.py`.
Numeric table entries are modelled over the rationals.
-/

namespace Uflacs

/-- Table variability classification, from the spec data model and the ttype
strings used throughout `build_uflacs_ir.py`. -/
inductive TType
  | zeros
  | ones
  | fixed
  | piecewise
  | uniform
  | varying
  | quadrature
  | preintegrated
  | premultiplied
  deriving DecidableEq, Repr

/-- `piecewise_ttypes = ("piecewise", "fixed", "ones", "zeros")`. -/
def piecewise_ttypes : List TType := [.piecewise, .fixed, .ones, .zeros]

/-- `uniform_ttypes = ("uniform", "fixed", "ones", "zeros")`. -/
def uniform_ttypes : List TType := [.uniform, .fixed, .ones, .zeros]

/-- Integral kind tag. The source uses strings from `ufl.measure`; the spec
(section 6) lists the kinds as cell, exterior-facet, interior-facet,
vertex/point, custom, and expression, so each family is represented by one
constructor here. -/
inductive IntegralType
  | cell
  | exterior_facet
  | interior_facet
  | vertex
  | custom
  | expression
  deriving DecidableEq, Repr

/-- `point_integral_types` from `ufl.measure` (the vertex/point kind). -/
def point_integral_types : List IntegralType := [.vertex]

/-- `custom_integral_types` from `ufl.measure` (the custom kind). -/
def custom_integral_types : List IntegralType := [.custom]

/-- `facet_integral_types` from `ufl.measure`. -/
def facet_integral_types : List IntegralType := [.exterior_facet, .interior_facet]

/-- The five block modes of the classifier in `build_uflacs_ir`. -/
inductive BlockMode
  | preintegrated
  | premultiplied
  | partialMode
  | full
  | safe
  deriving DecidableEq, Repr

/-- `skip_preintegrated = point_integral_types + custom_integral_types + ("interior_facet",)`. -/
def skip_preintegrated : List IntegralType :=
  point_integral_types ++ custom_integral_types ++ [.interior_facet]

/-- `skip_premultiplied = point_integral_types + custom_integral_types + ("interior_facet",)`. -/
def skip_premultiplied : List IntegralType :=
  point_integral_types ++ custom_integral_types ++ [.interior_facet]

/-- The block-mode decision chain of `build_uflacs_ir` (lines 366-398).
In the source `rank = len(ma_indices)` and `ttypes` is built with one entry
per element of `ma_indices`, so `rank` is the length of `ttypes` here.
`factor_is_piecewise` is `FV_piecewise[fi]` for the monomial factor. -/
def block_mode_of (do_apply_preintegration : Bool) (integral_type : IntegralType)
    (ttypes : List TType) (factor_is_piecewise : Bool) : BlockMode :=
  let rank := ttypes.length
  if do_apply_preintegration = false then
    .safe
  else if factor_is_piecewise = true ∧ 0 < rank ∧ TType.quadrature ∉ ttypes
      ∧ integral_type ∉ skip_preintegrated then
    .preintegrated
  else if 0 < rank ∧ (∀ tt ∈ ttypes, tt ∈ piecewise_ttypes)
      ∧ integral_type ∉ skip_premultiplied then
    .premultiplied
  else if rank = 2 ∧ (∃ tt ∈ ttypes, tt ∈ piecewise_ttypes) then
    .partialMode
  else
    .full

/-- A basis table tensor indexed `[entity, point, dof]`, with its axis sizes.
Entries are modelled over the rationals. -/
structure Table where
  num_entities : Nat
  num_points : Nat
  entry : Nat → Nat → Nat → ℚ

/-- Reading a table inside `multiply_block`: tables compacted along the
entity or point axis (axis size 1) are read at index 0
(`e = 0 if tbl.shape[0] == 1 else entity`, `q = 0 if tbl.shape[1] == 1 else point_index`). -/
def Table.read (tbl : Table) (entity point dof : Nat) : ℚ :=
  tbl.entry (if tbl.num_entities = 1 then 0 else entity)
    (if tbl.num_points = 1 then 0 else point) dof

/-- One entry of the rank-2 `multiply_block` result: the outer product of the
two table rows at quadrature point `point_index`
(`ptable[entity, ...] = numpy.outer(u_vec, v_vec)`). -/
def multiply_block (point_index : Nat) (u v : Table) (entity du dv : Nat) : ℚ :=
  u.read entity point_index du * v.read entity point_index dv

/-- The accumulation loop of `integrate_block`
(`for iq, w in enumerate(weights): ptable += w * multiply_block(iq, ...)`),
with the enumeration index threaded explicitly. -/
def integrate_block_from (u v : Table) (entity du dv : Nat) : Nat → List ℚ → ℚ
  | _, [] => 0
  | iq, w :: ws =>
      w * multiply_block iq u v entity du dv
        + integrate_block_from u v entity du dv (iq + 1) ws

/-- One entry of the rank-2 `integrate_block` result. -/
def integrate_block (weights : List ℚ) (u v : Table) (entity du dv : Nat) : ℚ :=
  integrate_block_from u v entity du dv 0 weights

/-- The data of one factored monomial as seen by the block classifier: the
per-argument table variability types and the piecewise status of the scalar
factor vertex. -/
structure Monomial where
  ttypes : List TType
  factor_is_piecewise : Bool
  deriving DecidableEq, Repr

/-- The `block_is_piecewise` flag computed while carrying out the block-mode
decision: `True` for preintegrated blocks, `False` for premultiplied blocks,
and for partial/full/safe blocks `factor_is_piecewise and not expect_weight`
further cleared when any argument table is not piecewise. -/
def block_is_piecewise_of (expect_weight : Bool) (m : Monomial) :
    BlockMode → Bool
  | .preintegrated => true
  | .premultiplied => false
  | _ =>
      m.factor_is_piecewise && !expect_weight
        && m.ttypes.all (fun tt => decide (tt ∈ piecewise_ttypes))

/-- The modes of the blocks routed into the varying (per-quadrature-degree)
contribution map: every block whose `block_is_piecewise` flag is false. -/
def varying_block_modes (do_apply_preintegration : Bool)
    (integral_type : IntegralType) (expect_weight : Bool)
    (monomials : List Monomial) : List BlockMode :=
  monomials.filterMap (fun m =>
    let mode := block_mode_of do_apply_preintegration integral_type
      m.ttypes m.factor_is_piecewise
    if block_is_piecewise_of expect_weight m mode then none else some mode)

/-- `need_weights` (lines 561-575): true iff weighting is expected and the
varying block-mode histogram has a mode other than preintegrated. The source
iterates over the distinct keys of a mode-count dict built from the varying
blocks, which holds a non-preintegrated key iff the list of varying block
modes holds a non-preintegrated element. -/
def need_weights_of (do_apply_preintegration : Bool)
    (integral_type : IntegralType) (expect_weight : Bool)
    (monomials : List Monomial) : Bool :=
  expect_weight
    && (varying_block_modes do_apply_preintegration integral_type expect_weight
          monomials).any (fun mode => decide (mode ≠ .preintegrated))

/-- Kinds of underlying terminals the `need_points` computation looks at. -/
inductive TerminalKind
  | cellCoordinate
  | facetCoordinate
  | quadratureWeight
  | other
  deriving DecidableEq, Repr

/-- `need_points` (lines 547-554): for cell integrals, whether an active
modified terminal is a CellCoordinate; for facet integrals, whether one is a
FacetCoordinate; false otherwise. -/
def need_points_of (integral_type : IntegralType)
    (active_terminals : List TerminalKind) : Bool :=
  if integral_type = .cell then
    active_terminals.any (fun t => decide (t = .cellCoordinate))
  else if integral_type ∈ facet_integral_types then
    active_terminals.any (fun t => decide (t = .facetCoordinate))
  else
    false

/-- Per-vertex data consumed by the seeding loop of `analyse_dependencies`:
whether the vertex index is in `modified_terminal_indices`, the table type of
its table range when `mt_table_ranges` has one, and `is_cellwise_constant`. -/
structure DepVertex where
  is_mt : Bool
  ttype : Option TType
  cellwise_constant : Bool
  deriving DecidableEq, Repr

/-- The seeding loop body of `analyse_dependencies` (lines 679-700): a
modified terminal seeds the varying set when its table type is varying,
uniform or quadrature; types outside the seven valid ones are a fatal error;
a terminal without a table range seeds when not cellwise constant. -/
def varying_seed (v : DepVertex) : Except String Bool :=
  if v.is_mt = false then .ok false
  else
    match v.ttype with
    | some tt =>
        if tt ∈ [TType.varying, TType.uniform, TType.quadrature] then .ok true
        else if tt ∉ [TType.fixed, TType.piecewise, TType.ones, TType.zeros] then
          .error "Invalid ttype"
        else .ok false
    | none => .ok (!v.cellwise_constant)

/-- One propagation step of backward reachability from the targets: a vertex
becomes active when some active vertex lists it as a dependency. -/
def mark_active_step (deps : List (List Nat)) (act : List Bool) : List Bool :=
  (List.range deps.length).map (fun i =>
    act.getD i false
      || (List.range deps.length).any (fun j =>
            act.getD j false && (deps.getD j []).contains i))

/-- Modelled from the spec: `mark_active` of the dependency-analysis helpers
is not among the repository files; section 4.4 defines `active` as the set of
vertices reachable backward from the declared targets, computed here as a
bounded fixed-point iteration of one propagation step. -/
def mark_active (deps : List (List Nat)) (targets : List Nat) : List Bool :=
  (mark_active_step deps)^[deps.length]
    ((List.range deps.length).map (fun i => targets.contains i))

/-- One propagation step of forward image marking: a vertex becomes varying
when one of its dependencies is varying. -/
def mark_image_step (deps : List (List Nat)) (var : List Bool) : List Bool :=
  (List.range deps.length).map (fun j =>
    var.getD j false || (deps.getD j []).any (fun i => var.getD i false))

/-- Modelled from the spec: `mark_image` of the dependency-analysis helpers
is not among the repository files; section 4.4 propagates the varying seeds
forward through the inverted dependency graph (any vertex reachable forward
from a varying seed is varying), computed here as a bounded fixed-point
iteration of one propagation step. -/
def mark_image (deps : List (List Nat)) (seeds : List Bool) : List Bool :=
  (mark_image_step deps)^[deps.length]
    ((List.range deps.length).map (fun i => seeds.getD i false))

/-- `analyse_dependencies` (lines 665-718): computes the active markers, the
varying seeds, the forward image of the seeds, then
`piecewise = 1 - varying`, `varying *= active`, `piecewise *= active`.
Returns `(active, piecewise, varying)`. -/
def analyse_dependencies (vertices : List DepVertex) (deps : List (List Nat))
    (targets : List Nat) : Except String (List Bool × List Bool × List Bool) := do
  let seeds ← vertices.mapM varying_seed
  let active := mark_active deps targets
  let varying0 := mark_image deps seeds
  let piecewise0 := varying0.map (fun b => !b)
  let varying := List.zipWith (fun v a => v && a) varying0 active
  let piecewise := List.zipWith (fun p a => p && a) piecewise0 active
  return (active, piecewise, varying)

/-- Core terminal data used by `analyse_modified_terminal`: an identity, the
value shape `ufl_shape`, and the `reference_value_shape` of its element. -/
structure UTerminal where
  id : Nat
  ufl_shape : List Nat
  reference_value_shape : List Nat
  deriving DecidableEq, Repr

/-- One-sided restriction, the `_side` of a Restricted modifier. -/
inductive Restriction
  | plus
  | minus
  deriving DecidableEq, Repr

/-- The `averaged` evaluation method recorded by the averaging modifiers. -/
inductive Averaged
  | cell
  | facet
  deriving DecidableEq, Repr

/-- A terminal wrapped in the modifier node types recognized by
`analyse_modified_terminal`: Indexed (with fixed indices), ReferenceValue,
ReferenceGrad, Grad, Restricted, CellAvg and FacetAvg. -/
inductive MTExpr
  | terminal (t : UTerminal)
  | indexed (e : MTExpr) (idx : List Nat)
  | reference_value (e : MTExpr)
  | reference_grad (e : MTExpr)
  | grad (e : MTExpr)
  | restricted (e : MTExpr) (side : Restriction)
  | cell_avg (e : MTExpr)
  | facet_avg (e : MTExpr)
  deriving DecidableEq, Repr

/-- The mutable locals of the stripping loop in `analyse_modified_terminal`. -/
structure StripState where
  component : Option (List Nat)
  global_derivatives : List Nat
  local_derivatives : List Nat
  reference_value : Option Bool
  restriction : Option Restriction
  averaged : Option Averaged
  deriving DecidableEq, Repr

/-- The initial stripping state: every datum still undetermined (None). -/
def initStripState : StripState :=
  { component := none, global_derivatives := [], local_derivatives := [],
    reference_value := none, restriction := none, averaged := none }

/-- The modifier-stripping loop of `analyse_modified_terminal` (lines
188-241), one recursive call per stripped layer. A gradient before any
indexing fails in the source either with the ffc assertion message (empty
component list) or with a TypeError from `len(None)` (component still None);
both are modelled as errors here. -/
def strip_modifiers : MTExpr → StripState → Except String (UTerminal × StripState)
  | .terminal t, s => .ok (t, s)
  | .indexed e idx, s =>
      if s.component.isSome then .error "Got twice indexed terminal."
      else strip_modifiers e { s with component := some idx }
  | .reference_value e, s =>
      if s.reference_value.isSome then .error "Got twice pulled back terminal!"
      else strip_modifiers e { s with reference_value := some true }
  | .reference_grad e, s =>
      match s.component with
      | none => .error "Got local gradient of terminal without prior indexing."
      | some [] => .error "Got local gradient of terminal without prior indexing."
      | some (c :: cs) =>
          strip_modifiers e
            { s with
              local_derivatives := s.local_derivatives ++ [(c :: cs).getLast (by simp)],
              component := some (c :: cs).dropLast }
  | .grad e, s =>
      match s.component with
      | none => .error "Got gradient of terminal without prior indexing."
      | some [] => .error "Got gradient of terminal without prior indexing."
      | some (c :: cs) =>
          strip_modifiers e
            { s with
              global_derivatives := s.global_derivatives ++ [(c :: cs).getLast (by simp)],
              component := some (c :: cs).dropLast }
  | .restricted e side, s =>
      if s.restriction.isSome then .error "Got twice restricted terminal!"
      else strip_modifiers e { s with restriction := some side }
  | .cell_avg e, s =>
      if s.averaged.isSome then .error "Got twice averaged terminal!"
      else strip_modifiers e { s with averaged := some Averaged.cell }
  | .facet_avg e, s =>
      if s.averaged.isSome then .error "Got twice averaged terminal!"
      else strip_modifiers e { s with averaged := some Averaged.facet }

/-- The canonical descriptor produced by `analyse_modified_terminal`, with
the fields of the `ModifiedTerminal` class. -/
structure ModifiedTerminal where
  expr : MTExpr
  terminal : UTerminal
  reference_value : Bool
  base_shape : List Nat
  component : List Nat
  flat_component : Nat
  global_derivatives : List Nat
  local_derivatives : List Nat
  averaged : Option Averaged
  restriction : Option Restriction
  deriving DecidableEq, Repr

/-- `ModifiedTerminal.as_tuple`: the sortable identity tuple. The derived
`base_shape` and `component` fields (and the original `expr`) are omitted in
the source (lines 94-108). -/
def ModifiedTerminal.as_tuple (m : ModifiedTerminal) :
    UTerminal × Bool × Nat × List Nat × List Nat × Option Averaged × Option Restriction :=
  (m.terminal, m.reference_value, m.flat_component, m.global_derivatives,
    m.local_derivatives, m.averaged, m.restriction)

/-- Helper instance so that equality of the identity tuples is decidable in
one instance-search step. -/
instance : DecidableEq (List Nat × Option Averaged × Option Restriction) :=
  inferInstance

/-- `ModifiedTerminal.__eq__`: equality of the `as_tuple` values (the
isinstance guard always holds between two descriptors). -/
def ModifiedTerminal.eq (a b : ModifiedTerminal) : Bool :=
  decide (a.as_tuple = b.as_tuple)

/-- Row-major flattening of a component multi-index within a shape. The
source calls the external `ufl.permutation.build_component_numbering`
(symmetry-aware); the table-construction mathematics is outside the
repository, and no claim constrains the numbering itself, so symmetries are
not modelled and the plain row-major numbering is used. -/
def flatten_component : List Nat → List Nat → Nat
  | [], _ => 0
  | _ :: _, [] => 0
  | c :: cs, _ :: ds => c * ds.prod + flatten_component cs ds

/-- The base-shape selection of `analyse_modified_terminal` (lines 269-282):
the reference value shape when in reference frame (with the plain Python
assertion `len(base_shape) <= 1` modelled as an error), else `ufl_shape`. -/
def mt_base_shape (t : UTerminal) (reference_value : Bool) : Except String (List Nat) :=
  if reference_value then
    if t.reference_value_shape.length ≤ 1 then .ok t.reference_value_shape
    else .error "assert len(base_shape) <= 1 failed"
  else .ok t.ufl_shape

/-- The post-loop part of `analyse_modified_terminal` (lines 244-300):
canonical sorting of the derivative lists, defaulting of
`reference_value` and `component`, the two derivative-legality checks, the
component-length and component-bounds assertions, and flattening. -/
def mt_finalize (expr : MTExpr) (t : UTerminal) (s : StripState) :
    Except String ModifiedTerminal := do
  let global_derivatives := List.insertionSort (· ≤ ·) s.global_derivatives
  let local_derivatives := List.insertionSort (· ≤ ·) s.local_derivatives
  let reference_value := s.reference_value.getD false
  if local_derivatives ≠ [] ∧ reference_value = false then
    .error "Local derivatives of non-local value is not legal."
  else if global_derivatives ≠ [] ∧ reference_value = true then
    .error "Global derivatives of local value is not legal."
  else
    let component := s.component.getD []
    let base_shape ← mt_base_shape t reference_value
    if component.length ≠ base_shape.length then
      .error "Length of component does not match rank of (reference) terminal."
    else if ¬ ∀ p ∈ List.zip component base_shape, p.1 < p.2 then
      .error "Component indices are outside value shape"
    else
      return { expr := expr, terminal := t, reference_value := reference_value,
               base_shape := base_shape, component := component,
               flat_component := flatten_component component base_shape,
               global_derivatives := global_derivatives,
               local_derivatives := local_derivatives,
               averaged := s.averaged, restriction := s.restriction }

/-- `analyse_modified_terminal`: strip the modifier layers, then finalize. -/
def analyse_modified_terminal (expr : MTExpr) : Except String ModifiedTerminal := do
  let (t, s) ← strip_modifiers expr initStripState
  mt_finalize expr t s

/-- The preintegration flag as `build_uflacs_ir` actually computes it (lines
148-151): hardcoded to True under a FIXME comment, without consulting the
parameters structure. -/
def do_apply_preintegration_of (_parameters : String → Option Bool) : Bool :=
  true

/-- A concrete two-vertex graph for evaluating the dependency analyzer:
vertex 0 is a modified terminal with a varying table, vertex 1 an operator
depending on it and the only target. -/
def depVerticesEx : List DepVertex :=
  [{ is_mt := true, ttype := some .varying, cellwise_constant := true },
   { is_mt := false, ttype := none, cellwise_constant := true }]

/-- Dependency lists of the concrete two-vertex graph. -/
def depDepsEx : List (List Nat) := [[], [0]]

/-- Targets of the concrete two-vertex graph. -/
def depTargetsEx : List Nat := [1]

/-- A concrete scalar terminal. -/
def mtTerminalEx : UTerminal :=
  { id := 0, ufl_shape := [], reference_value_shape := [] }

/-- A concrete modified terminal expression: the first component of the
gradient of a scalar terminal. -/
def mtExprEx : MTExpr := .indexed (.grad (.terminal mtTerminalEx)) [0]

/-- The descriptor `analyse_modified_terminal` returns on `mtExprEx`. -/
def mtEx : ModifiedTerminal :=
  { expr := mtExprEx, terminal := mtTerminalEx, reference_value := false,
    base_shape := [], component := [], flat_component := 0,
    global_derivatives := [0], local_derivatives := [],
    averaged := none, restriction := none }

/-- A concrete 2x2-tensor-valued terminal. -/
def mtC8Terminal : UTerminal :=
  { id := 1, ufl_shape := [2, 2], reference_value_shape := [3] }

/-- A descriptor of component (0,1) of the 2x2 terminal whose flat component
is 1 (as a symmetry-aware numbering produces for a symmetric tensor). -/
def mtC8a : ModifiedTerminal :=
  { expr := .terminal mtC8Terminal, terminal := mtC8Terminal,
    reference_value := false, base_shape := [2, 2], component := [0, 1],
    flat_component := 1, global_derivatives := [], local_derivatives := [],
    averaged := none, restriction := none }

/-- The same descriptor as `mtC8a` except for the pre-flattening component
field, which is (1,0). -/
def mtC8b : ModifiedTerminal :=
  { expr := .terminal mtC8Terminal, terminal := mtC8Terminal,
    reference_value := false, base_shape := [2, 2], component := [1, 0],
    flat_component := 1, global_derivatives := [], local_derivatives := [],
    averaged := none, restriction := none }

/-- Characterization of the classifier as one nested conditional; proved by
unfolding `block_mode_of`. -/
theorem bm_spec (it : IntegralType) (ttypes : List TType) (fp : Bool) :
    block_mode_of true it ttypes fp =
      (if fp = true ∧ 0 < ttypes.length ∧ TType.quadrature ∉ ttypes
          ∧ it ∉ skip_preintegrated then .preintegrated
       else if 0 < ttypes.length ∧ (∀ tt ∈ ttypes, tt ∈ piecewise_ttypes)
          ∧ it ∉ skip_premultiplied then .premultiplied
       else if ttypes.length = 2 ∧ (∃ tt ∈ ttypes, tt ∈ piecewise_ttypes) then .partialMode
       else .full) := by
  simp [block_mode_of]

/-- The classifier returns preintegrated exactly under the first branch
condition. -/
theorem bm_pre_iff (it : IntegralType) (ttypes : List TType) (fp : Bool) :
    block_mode_of true it ttypes fp = .preintegrated ↔
      (fp = true ∧ 0 < ttypes.length ∧ TType.quadrature ∉ ttypes
        ∧ it ∉ skip_preintegrated) := by
  rw [bm_spec]
  by_cases hP : (fp = true ∧ 0 < ttypes.length ∧ TType.quadrature ∉ ttypes
      ∧ it ∉ skip_preintegrated)
  · rw [if_pos hP]
    exact iff_of_true rfl hP
  · rw [if_neg hP]
    split_ifs <;> exact iff_of_false (by simp) hP

/-- Below the preintegrated branch, the classifier returns premultiplied
exactly under the second branch condition. -/
theorem bm_premult_iff (it : IntegralType) (ttypes : List TType) (fp : Bool)
    (hnP : ¬(fp = true ∧ 0 < ttypes.length ∧ TType.quadrature ∉ ttypes
      ∧ it ∉ skip_preintegrated)) :
    block_mode_of true it ttypes fp = .premultiplied ↔
      (0 < ttypes.length ∧ (∀ tt ∈ ttypes, tt ∈ piecewise_ttypes)
        ∧ it ∉ skip_premultiplied) := by
  rw [bm_spec, if_neg hnP]
  by_cases hM : (0 < ttypes.length ∧ (∀ tt ∈ ttypes, tt ∈ piecewise_ttypes)
      ∧ it ∉ skip_premultiplied)
  · rw [if_pos hM]
    exact iff_of_true rfl hM
  · rw [if_neg hM]
    split_ifs <;> exact iff_of_false (by simp) hM

/-- Below the first two branches, the classifier returns partial exactly
under the third branch condition. -/
theorem bm_part_iff (it : IntegralType) (ttypes : List TType) (fp : Bool)
    (hnP : ¬(fp = true ∧ 0 < ttypes.length ∧ TType.quadrature ∉ ttypes
      ∧ it ∉ skip_preintegrated))
    (hnM : ¬(0 < ttypes.length ∧ (∀ tt ∈ ttypes, tt ∈ piecewise_ttypes)
      ∧ it ∉ skip_premultiplied)) :
    block_mode_of true it ttypes fp = .partialMode ↔
      (ttypes.length = 2 ∧ ∃ tt ∈ ttypes, tt ∈ piecewise_ttypes) := by
  rw [bm_spec, if_neg hnP, if_neg hnM]
  by_cases hQ : (ttypes.length = 2 ∧ ∃ tt ∈ ttypes, tt ∈ piecewise_ttypes)
  · rw [if_pos hQ]
    exact iff_of_true rfl hQ
  · rw [if_neg hQ]
    exact iff_of_false (by simp) hQ

/-- Below the first three branches, the classifier returns full. -/
theorem bm_full_eq (it : IntegralType) (ttypes : List TType) (fp : Bool)
    (hnP : ¬(fp = true ∧ 0 < ttypes.length ∧ TType.quadrature ∉ ttypes
      ∧ it ∉ skip_preintegrated))
    (hnM : ¬(0 < ttypes.length ∧ (∀ tt ∈ ttypes, tt ∈ piecewise_ttypes)
      ∧ it ∉ skip_premultiplied))
    (hnQ : ¬(ttypes.length = 2 ∧ ∃ tt ∈ ttypes, tt ∈ piecewise_ttypes)) :
    block_mode_of true it ttypes fp = .full := by
  rw [bm_spec, if_neg hnP, if_neg hnM, if_neg hnQ]

/-- C1: with preintegration enabled, the block classifier is a total
function into the five modes, and its choice follows the priority order:
preintegrated iff the factor is piecewise, the rank is positive, no argument
table type is quadrature and the integral type is not excluded; otherwise
premultiplied iff the rank is positive, every argument table type is of
piecewise kind and the integral type is not excluded; otherwise partial iff
the rank is 2 and some argument table type is of piecewise kind; otherwise
full. -/
theorem claim_C1_block_mode_priority (it : IntegralType) (ttypes : List TType)
    (fp : Bool) :
    (block_mode_of true it ttypes fp = .preintegrated ↔
      (fp = true ∧ 0 < ttypes.length ∧ TType.quadrature ∉ ttypes
        ∧ it ∉ skip_preintegrated)) ∧
    (¬(fp = true ∧ 0 < ttypes.length ∧ TType.quadrature ∉ ttypes
        ∧ it ∉ skip_preintegrated) →
      (block_mode_of true it ttypes fp = .premultiplied ↔
        (0 < ttypes.length ∧ (∀ tt ∈ ttypes, tt ∈ piecewise_ttypes)
          ∧ it ∉ skip_premultiplied))) ∧
    (¬(fp = true ∧ 0 < ttypes.length ∧ TType.quadrature ∉ ttypes
        ∧ it ∉ skip_preintegrated) →
      ¬(0 < ttypes.length ∧ (∀ tt ∈ ttypes, tt ∈ piecewise_ttypes)
          ∧ it ∉ skip_premultiplied) →
      (block_mode_of true it ttypes fp = .partialMode ↔
        (ttypes.length = 2 ∧ ∃ tt ∈ ttypes, tt ∈ piecewise_ttypes))) ∧
    (¬(fp = true ∧ 0 < ttypes.length ∧ TType.quadrature ∉ ttypes
        ∧ it ∉ skip_preintegrated) →
      ¬(0 < ttypes.length ∧ (∀ tt ∈ ttypes, tt ∈ piecewise_ttypes)
          ∧ it ∉ skip_premultiplied) →
      ¬(ttypes.length = 2 ∧ ∃ tt ∈ ttypes, tt ∈ piecewise_ttypes) →
      block_mode_of true it ttypes fp = .full) :=
  ⟨bm_pre_iff it ttypes fp,
   fun hnP => bm_premult_iff it ttypes fp hnP,
   fun hnP hnM => bm_part_iff it ttypes fp hnP hnM,
   fun hnP hnM hnQ => bm_full_eq it ttypes fp hnP hnM hnQ⟩

/-- C1 witness: on a rank-2 monomial with two varying tables over a cell
integral and a varying factor, no earlier branch applies and the classifier
returns full. -/
theorem claim_C1_block_mode_priority_witness :
    block_mode_of true .cell [.varying, .varying] false = .full :=
  (claim_C1_block_mode_priority .cell [.varying, .varying] false).2.2.2
    (by decide) (by decide) (by decide)

/-- C2 counterexample: for an interior-facet integral (which is in both
exclusion sets) a rank-2 monomial whose two argument tables are both of
piecewise type is classified partial, so it is not the case that exactly one
of its two argument tables is piecewise. -/
theorem claim_C2_counterexample :
    block_mode_of true .interior_facet [.piecewise, .piecewise] true
        = .partialMode ∧
    ¬ ([TType.piecewise, TType.piecewise].countP
        (fun tt => decide (tt ∈ piecewise_ttypes)) = 1) := by
  decide

/-- C2 amended: whenever the classifier selects partial, the rank equals 2
and at least one argument table type is of piecewise kind; if moreover the
integral type is not in the premultiplied exclusion set (point, custom or
interior-facet), then exactly one of the two argument table types is of
piecewise kind and the other is not. -/
theorem claim_C2_partial_rank_two (it : IntegralType) (ttypes : List TType)
    (fp : Bool) (h : block_mode_of true it ttypes fp = .partialMode) :
    ttypes.length = 2 ∧ (∃ tt ∈ ttypes, tt ∈ piecewise_ttypes) ∧
    (it ∉ skip_premultiplied →
      ∃ a b, ttypes = [a, b] ∧
        ((a ∈ piecewise_ttypes ∧ b ∉ piecewise_ttypes) ∨
         (a ∉ piecewise_ttypes ∧ b ∈ piecewise_ttypes))) := by
  rw [bm_spec] at h
  split_ifs at h with hP hM hQ
  all_goals try simp at h
  obtain ⟨hlen, hex⟩ := hQ
  refine ⟨hlen, hex, fun hskip => ?_⟩
  obtain ⟨a, b, rfl⟩ := List.length_eq_two.mp hlen
  have hnotall : ¬ (∀ tt ∈ [a, b], tt ∈ piecewise_ttypes) := by
    intro hall
    exact hM ⟨by omega, hall, hskip⟩
  refine ⟨a, b, rfl, ?_⟩
  by_cases ha : a ∈ piecewise_ttypes <;> by_cases hb : b ∈ piecewise_ttypes <;>
    simp_all

/-- C2 amended witness: a rank-2 cell-integral monomial with one piecewise
and one varying table is classified partial, and the exactly-one property
holds there. -/
theorem claim_C2_partial_rank_two_witness :
    block_mode_of true .cell [.piecewise, .varying] false = .partialMode ∧
    ([TType.piecewise, TType.varying] : List TType).length = 2 :=
  ⟨by decide,
    (claim_C2_partial_rank_two .cell [.piecewise, .varying] false (by decide)).1⟩

/-- C3: whenever the classifier selects premultiplied, the scalar factor is
not piecewise: the premultiplied conditions together with a piecewise factor
would already satisfy the earlier preintegrated branch, since the two
exclusion sets are identical and piecewise table kinds are never quadrature. -/
theorem claim_C3_premultiplied_factor_not_piecewise (it : IntegralType)
    (ttypes : List TType) (fp : Bool)
    (h : block_mode_of true it ttypes fp = .premultiplied) :
    fp = false := by
  rw [bm_spec] at h
  split_ifs at h with hP hM hQ
  all_goals try simp at h
  obtain ⟨hrank, hall, hskip⟩ := hM
  by_contra hfp
  refine hP ⟨by simpa using hfp, hrank, fun hq => ?_, ?_⟩
  · have := hall _ hq
    simp [piecewise_ttypes] at this
  · simpa [skip_preintegrated, skip_premultiplied] using hskip

/-- C3 witness: a rank-1 monomial with a piecewise table and a non-piecewise
factor over a cell integral is classified premultiplied, and the theorem
applies to it. -/
theorem claim_C3_premultiplied_factor_not_piecewise_witness :
    block_mode_of true .cell [.piecewise] false = .premultiplied ∧
    (false : Bool) = false :=
  ⟨by decide,
    claim_C3_premultiplied_factor_not_piecewise .cell [.piecewise] false
      (by decide)⟩

/-- When the preintegration flag is false the classifier returns safe for
every monomial, every integral type and every factor status. -/
theorem bm_disabled_safe (it : IntegralType) (ttypes : List TType)
    (fp : Bool) :
    block_mode_of false it ttypes fp = .safe := by
  unfold block_mode_of
  simp

/-- C5: the configuration option is ignored. A parameters structure that
sets enable-preintegration to false still yields a preintegration flag of
True, and with that flag a rank-1 piecewise monomial over a cell integral is
classified preintegrated, not safe. -/
theorem claim_C5_preintegration_flag_ignored :
    do_apply_preintegration_of
        (fun key => if key = "enable-preintegration" then some false else none)
      = true ∧
    block_mode_of
        (do_apply_preintegration_of
          (fun key => if key = "enable-preintegration" then some false else none))
        .cell [.piecewise] true = .preintegrated ∧
    BlockMode.preintegrated ≠ .safe :=
  ⟨rfl, by decide, by decide⟩

/-- The accumulation loop of `integrate_block` computes the shifted weighted
sum over the remaining quadrature points. -/
theorem integrate_block_from_eq (u v : Table) (entity du dv : Nat)
    (ws : List ℚ) (iq : Nat) :
    integrate_block_from u v entity du dv iq ws =
      ∑ q ∈ Finset.range ws.length,
        ws.getD q 0 * (u.read entity (iq + q) du * v.read entity (iq + q) dv) := by
  induction ws generalizing iq with
  | nil => simp [integrate_block_from]
  | cons w ws ih =>
      rw [integrate_block_from, ih (iq + 1), List.length_cons,
        Finset.sum_range_succ']
      simp only [List.getD_cons_succ, List.getD_cons_zero, Nat.add_zero,
        multiply_block]
      have harg : ∀ q : Nat, iq + 1 + q = iq + (q + 1) := by omega
      rw [add_comm]
      congr 1
      refine Finset.sum_congr rfl fun q _ => ?_
      rw [harg q]

/-- C4: for a rank-2 block, the table returned by `integrate_block`
satisfies `P[entity, du, dv] = sum over q of w_q * u(entity, q, du) *
v(entity, q, dv)`, the quadrature-weighted sum of outer products of the two
argument table rows, axes of size 1 being read at index 0. -/
theorem claim_C4_integrate_block (weights : List ℚ) (u v : Table)
    (entity du dv : Nat) :
    integrate_block weights u v entity du dv =
      ∑ q ∈ Finset.range weights.length,
        weights.getD q 0 * (u.read entity q du * v.read entity q dv) := by
  rw [integrate_block, integrate_block_from_eq]
  simp

/-- When quadrature weighting is expected, a block is routed to the
piecewise contribution map exactly when its mode is preintegrated. -/
theorem bip_true (m : Monomial) (mode : BlockMode) :
    block_is_piecewise_of true m mode = decide (mode = .preintegrated) := by
  cases mode <;> simp [block_is_piecewise_of]

/-- Unfolding of the varying-block routing over one more monomial. -/
theorem vbm_cons (enabled : Bool) (it : IntegralType) (ew : Bool)
    (m : Monomial) (ms : List Monomial) :
    varying_block_modes enabled it ew (m :: ms) =
      (if block_is_piecewise_of ew m
          (block_mode_of enabled it m.ttypes m.factor_is_piecewise) then
        varying_block_modes enabled it ew ms
      else
        block_mode_of enabled it m.ttypes m.factor_is_piecewise
          :: varying_block_modes enabled it ew ms) := by
  rw [varying_block_modes, List.filterMap_cons]
  by_cases h : block_is_piecewise_of ew m
      (block_mode_of enabled it m.ttypes m.factor_is_piecewise)
  · simp [h, varying_block_modes]
  · simp [h, varying_block_modes]

/-- With weighting expected, the varying contribution list has a
non-preintegrated mode exactly when some monomial is classified with a
non-preintegrated mode. -/
theorem vbm_any (enabled : Bool) (it : IntegralType) (ms : List Monomial) :
    (varying_block_modes enabled it true ms).any
        (fun mode => decide (mode ≠ .preintegrated)) =
      ms.any (fun m =>
        decide (block_mode_of enabled it m.ttypes m.factor_is_piecewise
          ≠ .preintegrated)) := by
  induction ms with
  | nil => rfl
  | cons m ms ih =>
      rw [vbm_cons]
      by_cases hmode : block_mode_of enabled it m.ttypes m.factor_is_piecewise
          = .preintegrated
      · simpa [bip_true, hmode] using ih
      · simp [bip_true, hmode]

/-- C9: `need_weights` is true iff weighting is expected and some generated
block has a mode other than preintegrated; and the concrete rank-0 constant
integrand scenario yields one full block with `need_weights` true and
`need_points` false. -/
theorem claim_C9_need_weights :
    (∀ (enabled : Bool) (it : IntegralType) (ew : Bool) (ms : List Monomial),
      need_weights_of enabled it ew ms =
        (ew && ms.any (fun m =>
          decide (block_mode_of enabled it m.ttypes m.factor_is_piecewise
            ≠ .preintegrated)))) ∧
    block_mode_of true .cell [] true = .full ∧
    need_weights_of true .cell true [⟨[], true⟩] = true ∧
    need_points_of .cell [] = false := by
  refine ⟨fun enabled it ew ms => ?_, by decide, by decide, by decide⟩
  cases ew
  · simp [need_weights_of]
  · rw [need_weights_of, Bool.true_and, Bool.true_and, vbm_any]

/-- One image-marking step returns one flag per vertex. -/
theorem mark_image_step_length (deps : List (List Nat)) (x : List Bool) :
    (mark_image_step deps x).length = deps.length := by
  simp [mark_image_step]

/-- One active-marking step returns one flag per vertex. -/
theorem mark_active_step_length (deps : List (List Nat)) (x : List Bool) :
    (mark_active_step deps x).length = deps.length := by
  simp [mark_active_step]

/-- Iterating the image-marking step preserves the flag-vector length. -/
theorem mark_image_iterate_length (deps : List (List Nat)) :
    ∀ (k : Nat) (x : List Bool), x.length = deps.length →
      ((mark_image_step deps)^[k] x).length = deps.length := by
  intro k
  induction k with
  | zero => intro x hx; simpa using hx
  | succ k ih =>
      intro x hx
      rw [Function.iterate_succ_apply]
      exact ih _ (mark_image_step_length deps x)

/-- Iterating the active-marking step preserves the flag-vector length. -/
theorem mark_active_iterate_length (deps : List (List Nat)) :
    ∀ (k : Nat) (x : List Bool), x.length = deps.length →
      ((mark_active_step deps)^[k] x).length = deps.length := by
  intro k
  induction k with
  | zero => intro x hx; simpa using hx
  | succ k ih =>
      intro x hx
      rw [Function.iterate_succ_apply]
      exact ih _ (mark_active_step_length deps x)

/-- The image marker returns one flag per vertex. -/
theorem mark_image_length (deps : List (List Nat)) (seeds : List Bool) :
    (mark_image deps seeds).length = deps.length :=
  mark_image_iterate_length deps deps.length _ (by simp)

/-- The active marker returns one flag per vertex. -/
theorem mark_active_length (deps : List (List Nat)) (targets : List Nat) :
    (mark_active deps targets).length = deps.length :=
  mark_active_iterate_length deps deps.length _ (by simp)

/-- Pointwise, the masked complement and the masked original are disjoint. -/
theorem zip_not_and_disjoint (v a : List Bool) (i : Nat) :
    ((List.zipWith (fun p x => p && x) (v.map (fun b => !b)) a).getD i false &&
     (List.zipWith (fun q x => q && x) v a).getD i false) = false := by
  induction v generalizing a i with
  | nil => simp
  | cons b v ih =>
      cases a with
      | nil => simp
      | cons c a =>
          cases i with
          | zero => cases b <;> cases c <;> simp
          | succ i => simpa using ih a i

/-- Pointwise, the masked complement and the masked original join to the
mask, when the lengths agree. -/
theorem zip_not_and_union (v a : List Bool) (h : v.length = a.length) (i : Nat) :
    ((List.zipWith (fun p x => p && x) (v.map (fun b => !b)) a).getD i false ||
     (List.zipWith (fun q x => q && x) v a).getD i false) = a.getD i false := by
  induction v generalizing a i with
  | nil =>
      cases a with
      | nil => simp
      | cons c a => simp at h
  | cons b v ih =>
      cases a with
      | nil => simp at h
      | cons c a =>
          cases i with
          | zero => cases b <;> cases c <;> simp
          | succ i =>
              have h2 : v.length = a.length := by simpa using h
              simpa using ih a h2 i

/-- C6: the piecewise and varying vertex sets returned by the dependency
analyzer partition the active set: they are pointwise disjoint and their
union is pointwise the active marker. -/
theorem claim_C6_partition (vertices : List DepVertex) (deps : List (List Nat))
    (targets : List Nat) (active piecewise varying : List Bool)
    (h : analyse_dependencies vertices deps targets
      = .ok (active, piecewise, varying)) :
    (∀ i, (piecewise.getD i false && varying.getD i false) = false) ∧
    (∀ i, (piecewise.getD i false || varying.getD i false)
      = active.getD i false) := by
  unfold analyse_dependencies at h
  cases hseeds : vertices.mapM varying_seed with
  | error e => rw [hseeds] at h; simp at h
  | ok seeds =>
      rw [hseeds] at h
      simp only [bind, Except.bind, pure, Except.pure, Except.ok.injEq,
        Prod.mk.injEq] at h
      obtain ⟨ha, hp, hv⟩ := h
      subst ha hp hv
      have hlen : (mark_image deps seeds).length
          = (mark_active deps targets).length := by
        rw [mark_image_length, mark_active_length]
      constructor
      · intro i
        exact zip_not_and_disjoint (mark_image deps seeds)
          (mark_active deps targets) i
      · intro i
        exact zip_not_and_union (mark_image deps seeds)
          (mark_active deps targets) hlen i


/-- C6 witness: on the concrete two-vertex graph the analyzer succeeds and
the partition holds at vertex 0. -/
theorem claim_C6_partition_witness :
    (([false, false] : List Bool).getD 0 false
      && ([true, true] : List Bool).getD 0 false) = false :=
  (claim_C6_partition depVerticesEx depDepsEx depTargetsEx
    [true, true] [false, false] [true, true] (by rfl)).1 0

/-- Inversion of the finalization step: when it succeeds, the derivative
legality checks, sortedness, and the component assertions all hold of the
returned descriptor. -/
theorem mt_finalize_ok (expr : MTExpr) (t : UTerminal) (s : StripState)
    (mt : ModifiedTerminal) (h : mt_finalize expr t s = .ok mt) :
    (mt.local_derivatives ≠ [] → mt.reference_value = true) ∧
    (mt.global_derivatives ≠ [] → mt.reference_value = false) ∧
    List.Sorted (· ≤ ·) mt.global_derivatives ∧
    List.Sorted (· ≤ ·) mt.local_derivatives ∧
    mt.component.length = mt.base_shape.length ∧
    (∀ p ∈ List.zip mt.component mt.base_shape, p.1 < p.2) := by
  unfold mt_finalize at h
  dsimp only at h
  split_ifs at h with h1 h2
  cases hbs : mt_base_shape t (s.reference_value.getD false) with
  | error e => rw [hbs] at h; simp [bind, Except.bind] at h
  | ok bs =>
      rw [hbs] at h
      simp only [bind, Except.bind] at h
      split_ifs at h with h3 h4
      simp only [pure, Except.pure, Except.ok.injEq] at h
      subst h
      dsimp only
      refine ⟨?_, ?_, ?_, ?_, ?_, ?_⟩
      · intro hld
        by_contra hrv
        exact h1 ⟨hld, by simpa using hrv⟩
      · intro hgd
        by_contra hrv
        exact h2 ⟨hgd, by simpa using hrv⟩
      · exact List.sorted_insertionSort _ _
      · exact List.sorted_insertionSort _ _
      · omega
      · exact h4


/-- C7: every descriptor returned by `analyse_modified_terminal` satisfies
the invariants: non-empty local derivatives imply reference frame, non-empty
global derivatives imply physical frame, both derivative lists are sorted,
the component has one index per base-shape axis and every index is inside
its axis bound. -/
theorem claim_C7_modified_terminal_invariants (e : MTExpr)
    (mt : ModifiedTerminal) (h : analyse_modified_terminal e = .ok mt) :
    (mt.local_derivatives ≠ [] → mt.reference_value = true) ∧
    (mt.global_derivatives ≠ [] → mt.reference_value = false) ∧
    List.Sorted (· ≤ ·) mt.global_derivatives ∧
    List.Sorted (· ≤ ·) mt.local_derivatives ∧
    mt.component.length = mt.base_shape.length ∧
    (∀ p ∈ List.zip mt.component mt.base_shape, p.1 < p.2) := by
  unfold analyse_modified_terminal at h
  cases hs : strip_modifiers e initStripState with
  | error msg => rw [hs] at h; simp [bind, Except.bind] at h
  | ok ts =>
      obtain ⟨t, st⟩ := ts
      rw [hs] at h
      simp only [bind, Except.bind] at h
      exact mt_finalize_ok e t st mt h

/-- C7 witness: the analyzer succeeds on the concrete expression `mtExprEx`
and the component-length invariant holds of its result. -/
theorem claim_C7_modified_terminal_invariants_witness :
    mtEx.component.length = mtEx.base_shape.length :=
  (claim_C7_modified_terminal_invariants mtExprEx mtEx (by rfl)).2.2.2.2.1

/-- C8 counterexample: two descriptors that differ in the pre-flattening
component field but agree on the identity tuple compare equal, refuting the
claim that a difference in any field other than base_shape makes them
unequal. -/
theorem claim_C8_counterexample :
    ModifiedTerminal.eq mtC8a mtC8b = true ∧ mtC8a.component ≠ mtC8b.component := by
  decide

/-- C8 amended: descriptor equality holds iff the fields of the identity
tuple agree, that is all fields except the redundant base_shape, the
pre-flattening component and the original expression. -/
theorem claim_C8_eq_iff_tuple_fields (a b : ModifiedTerminal) :
    ModifiedTerminal.eq a b = true ↔
      (a.terminal = b.terminal ∧ a.reference_value = b.reference_value ∧
       a.flat_component = b.flat_component ∧
       a.global_derivatives = b.global_derivatives ∧
       a.local_derivatives = b.local_derivatives ∧
       a.averaged = b.averaged ∧ a.restriction = b.restriction) := by
  unfold ModifiedTerminal.eq ModifiedTerminal.as_tuple
  simp [Prod.ext_iff]

/-- C10: an expression in which the indexing modifier is applied twice in a
row is rejected by `analyse_modified_terminal` with the twice-indexed
error, for every inner expression and every pair of index tuples. -/
theorem claim_C10_twice_indexed_rejected (e : MTExpr) (i j : List Nat) :
    analyse_modified_terminal (.indexed (.indexed e i) j)
      = .error "Got twice indexed terminal." := by
  simp [analyse_modified_terminal, strip_modifiers, initStripState,
    bind, Except.bind]

end Uflacs
